import Mathlib

/-!
Verification of the carm-company-profile storage subsystem.

The development shallowly embeds the Python sources:
  src/carm_company_profile/storage/local_storage.py  (LocalFileStorage)
  src/carm_company_profile/storage/azure_storage.py  (AzureBlobStorage)
  src/carm_company_profile/manager.py                (ProfileManager, _auto_detect_storage)

State is made explicit:
  - the contents of the profiles directory become an association list
    from file name (a name inside the directory) to file text;
  - an Azure container becomes an association list from blob name to blob text;
  - the blob service becomes an association list from container name to container;
  - the process environment becomes an association list from variable name to value.

The external validated data model (carm_data_models.CompanyProfile) and the JSON
codec are opaque collaborators; they are abstracted as a `DataModel` record whose
round-trip laws appear as hypotheses where a theorem needs them.
-/

set_option autoImplicit false

namespace CarmCompanyProfile

/-- JSON values, as produced by json.loads and consumed by the validator.
Nested objects let the shallow-versus-deep merge distinction be observed. -/
inductive Json where
  | null : Json
  | bool (b : Bool) : Json
  | num (n : Int) : Json
  | str (s : String) : Json
  | arr (elems : List Json) : Json
  | obj (fields : List (String × Json)) : Json

/-- String-keyed association list: the uniform model for a Python dict, a
directory of files, an Azure container of blobs, and the process environment. -/
abbrev Store (β : Type) : Type := List (String × β)

/-- A Python dict with string keys (insertion-ordered; keys unique in practice). -/
abbrev Dict : Type := Store Json

/-- First binding for a key, the read operation of every state model. -/
def lookupKey {β : Type} : Store β → String → Option β
  | [], _ => none
  | kv :: rest, k => if kv.1 = k then some kv.2 else lookupKey rest k

/-- Overwrite the binding for a key in place, or append a fresh binding:
Python d[k] = v, a file write, a blob upload with overwrite. -/
def setKey {β : Type} : Store β → String → β → Store β
  | [], k, v => [(k, v)]
  | kv :: rest, k, v => if kv.1 = k then (k, v) :: rest else kv :: setKey rest k v

/-- Remove the binding for a key: file unlink, blob delete. -/
def eraseKey {β : Type} : Store β → String → Store β
  | [], _ => []
  | kv :: rest, k => if kv.1 = k then rest else kv :: eraseKey rest k

/-- The keys of a store, in order. -/
def keysOf {β : Type} (l : Store β) : List String := l.map Prod.fst

/-- Well-formed store: keys are pairwise distinct, as a real directory,
container, dict or environment guarantees. -/
def Store.WF {β : Type} (l : Store β) : Prop := (keysOf l).Nodup

/-- Python dict.update(u): bindings of u are written into d left to right,
overriding exactly the top-level keys present in u. -/
def dictUpdate (d u : Dict) : Dict := u.foldl (fun a kv => setKey a kv.1 kv.2) d

/-- Errors raised by the subsystem. notFound models FileNotFoundError,
jsonDecodeError models json.JSONDecodeError, validationError models the
validation collaborator rejecting a mapping, alreadyExists models the
ValueError raised by ProfileManager.create. Each carries the profile id
where the Python message interpolates one. -/
inductive StorageError where
  | notFound (profile_id : String) : StorageError
  | jsonDecodeError : StorageError
  | validationError : StorageError
  | alreadyExists (profile_id : String) : StorageError
deriving DecidableEq

/-- True exactly on the NotFound error, the discriminator the contract uses. -/
def isNotFound {α : Type} : Except StorageError α → Bool
  | Except.error (StorageError.notFound _) => true
  | _ => false

/-- Modelled from the spec: the opaque validated data model
(carm_data_models.CompanyProfile, not part of this repository) together with
the JSON codec. It offers validate, dump and dump-to-text (spec section 6);
json_loads is the text-to-mapping direction of the codec. A failing
model_validate or json_loads is none. -/
structure DataModel (P : Type) where
  model_dump : P → Dict
  model_validate : Dict → Option P
  model_dump_json : P → String
  json_loads : String → Option Dict

/-- Contents of the profiles directory: file name inside the directory mapped
to file text. The constant directory prefix of LocalFileStorage.profiles_dir
is factored out of the state, so glob over the top level of the directory
becomes a scan of the keys. -/
abbrev FS : Type := Store String

/-- An Azure container: blob name mapped to blob text. -/
abbrev BlobContainer : Type := Store String

/-- The blob service: container name mapped to container contents. -/
abbrev BlobService : Type := Store BlobContainer

/-- Python str.lower of the environment name, written as a character map so
that it evaluates (String.toLower is extensionally the same function). -/
def pyLower (s : String) : String := String.mk (s.data.map Char.toLower)

/-- The storage-key suffix shared by both backends. -/
def jsonExtension : String := ".json"

/-- LocalFileStorage._get_file_path: the name of the file for a profile id,
relative to the profiles directory. -/
def LocalFileStorage._get_file_path (profile_id : String) : String :=
  profile_id ++ jsonExtension

/-- AzureBlobStorage._get_blob_name: the blob name for a profile id. -/
def AzureBlobStorage._get_blob_name (profile_id : String) : String :=
  profile_id ++ jsonExtension

/-- Recover a profile id from a storage key: some when the name ends in
".json" (the glob filter of LocalFileStorage.list, the endswith filter of
AzureBlobStorage.list), carrying the name with its last five characters
removed (Path.stem there, blob.name[:-5] here). -/
def jsonStem? (file_name : String) : Option String :=
  if jsonExtension.data <:+ file_name.data then
    some (String.mk (file_name.data.take (file_name.data.length - 5)))
  else
    none

/-- Lexicographic comparison of code-point lists, the order Python sorted()
uses on str values; written by recursion so that it evaluates. -/
def charListLe : List Char → List Char → Bool
  | [], _ => true
  | _ :: _, [] => false
  | a :: as, b :: bs => if a = b then charListLe as bs else decide (a < b)

/-- The string comparison of Python sorted(), on the code points. -/
def strLe (a b : String) : Bool := charListLe a.data b.data

instance strLe_dec : DecidableRel (fun a b : String => strLe a b = true) :=
  fun _ _ => instDecidableEqBool _ _

/-- LocalFileStorage.load: NotFound when the file is absent; otherwise the
text is JSON-parsed and validated, each failure surfacing as its own error. -/
def LocalFileStorage.load {P : Type} (M : DataModel P) (fs : FS)
    (profile_id : String) : Except StorageError P :=
  match lookupKey fs (LocalFileStorage._get_file_path profile_id) with
  | none => Except.error (StorageError.notFound profile_id)
  | some content =>
    match M.json_loads content with
    | none => Except.error StorageError.jsonDecodeError
    | some data =>
      match M.model_validate data with
      | none => Except.error StorageError.validationError
      | some profile => Except.ok profile

/-- LocalFileStorage.save: write model_dump_json of the profile to the file,
overwriting any prior content (the mkdir of the parent is a no-op here). -/
def LocalFileStorage.save {P : Type} (M : DataModel P) (fs : FS)
    (profile_id : String) (profile : P) : FS :=
  setKey fs (LocalFileStorage._get_file_path profile_id) (M.model_dump_json profile)

/-- LocalFileStorage.delete: NotFound when the file is absent, otherwise the
file is unlinked and the new directory contents returned. -/
def LocalFileStorage.delete (fs : FS) (profile_id : String) :
    Except StorageError FS :=
  if (lookupKey fs (LocalFileStorage._get_file_path profile_id)).isSome then
    Except.ok (eraseKey fs (LocalFileStorage._get_file_path profile_id))
  else
    Except.error (StorageError.notFound profile_id)

/-- LocalFileStorage.exists: a plain existence check at the resolved path. -/
def LocalFileStorage.exists (fs : FS) (profile_id : String) : Bool :=
  (lookupKey fs (LocalFileStorage._get_file_path profile_id)).isSome

/-- LocalFileStorage.list: the stems of the ".json" files in the directory,
sorted ascending (sorted() is modelled by a sorting function). -/
def LocalFileStorage.list (fs : FS) : List String :=
  List.insertionSort (fun a b => strLe a b = true) ((keysOf fs).filterMap jsonStem?)

/-- Modelled from the spec: the blob client container lookup, whose not-found
signal the source catches (spec section 6 describes the collaborator as
offering container existence and creation with a not-found signal). -/
def AzureBlobStorage.get_container_client (svc : BlobService)
    (container_name : String) : Except StorageError Unit :=
  if (lookupKey svc container_name).isSome then Except.ok ()
  else Except.error (StorageError.notFound container_name)

/-- Modelled from the spec: container creation on the blob service. -/
def AzureBlobStorage.create_container (svc : BlobService)
    (container_name : String) : BlobService :=
  setKey svc container_name []

/-- AzureBlobStorage._ensure_container_exists: look the container up and, on
the not-found signal, create it. -/
def AzureBlobStorage._ensure_container_exists (svc : BlobService)
    (container_name : String) : BlobService :=
  match AzureBlobStorage.get_container_client svc container_name with
  | Except.ok _ => svc
  | Except.error _ => AzureBlobStorage.create_container svc container_name

/-- AzureBlobStorage.load: download the blob, decode, JSON-parse, validate;
the not-found signal of the store is translated into NotFound, while parse
and validation failures surface as their own errors. -/
def AzureBlobStorage.load {P : Type} (M : DataModel P) (blobs : BlobContainer)
    (profile_id : String) : Except StorageError P :=
  match lookupKey blobs (AzureBlobStorage._get_blob_name profile_id) with
  | none => Except.error (StorageError.notFound profile_id)
  | some content =>
    match M.json_loads content with
    | none => Except.error StorageError.jsonDecodeError
    | some data =>
      match M.model_validate data with
      | none => Except.error StorageError.validationError
      | some profile => Except.ok profile

/-- AzureBlobStorage.save: upload model_dump_json of the profile under the
blob name, overwriting unconditionally. -/
def AzureBlobStorage.save {P : Type} (M : DataModel P) (blobs : BlobContainer)
    (profile_id : String) (profile : P) : BlobContainer :=
  setKey blobs (AzureBlobStorage._get_blob_name profile_id) (M.model_dump_json profile)

/-- AzureBlobStorage.delete: delete the blob, translating the not-found
signal into NotFound. -/
def AzureBlobStorage.delete (blobs : BlobContainer) (profile_id : String) :
    Except StorageError BlobContainer :=
  if (lookupKey blobs (AzureBlobStorage._get_blob_name profile_id)).isSome then
    Except.ok (eraseKey blobs (AzureBlobStorage._get_blob_name profile_id))
  else
    Except.error (StorageError.notFound profile_id)

/-- AzureBlobStorage.exists: the native existence check on the blob. -/
def AzureBlobStorage.exists (blobs : BlobContainer) (profile_id : String) : Bool :=
  (lookupKey blobs (AzureBlobStorage._get_blob_name profile_id)).isSome

/-- AzureBlobStorage.list: names of blobs ending in ".json", each with the
extension stripped, sorted ascending. -/
def AzureBlobStorage.list (blobs : BlobContainer) : List String :=
  List.insertionSort (fun a b => strLe a b = true) ((keysOf blobs).filterMap jsonStem?)

/-- ProfileManager.create over the local backend: AlreadyExists when the id
is taken (state untouched), otherwise validate then save. -/
def ProfileManager.create {P : Type} (M : DataModel P) (fs : FS)
    (profile_id : String) (profile_data : Dict) : Except StorageError P × FS :=
  if LocalFileStorage.exists fs profile_id then
    (Except.error (StorageError.alreadyExists profile_id), fs)
  else
    match M.model_validate profile_data with
    | none => (Except.error StorageError.validationError, fs)
    | some profile => (Except.ok profile, LocalFileStorage.save M fs profile_id profile)

/-- ProfileManager.update over the local backend: load the existing profile
(NotFound propagates, state untouched), dump it to a mapping, shallow-merge
the updates at top level, re-validate, save. -/
def ProfileManager.update {P : Type} (M : DataModel P) (fs : FS)
    (profile_id : String) (updates : Dict) : Except StorageError P × FS :=
  match LocalFileStorage.load M fs profile_id with
  | Except.error e => (Except.error e, fs)
  | Except.ok profile =>
    match M.model_validate (dictUpdate (M.model_dump profile) updates) with
    | none => (Except.error StorageError.validationError, fs)
    | some updated_profile =>
      (Except.ok updated_profile, LocalFileStorage.save M fs profile_id updated_profile)

/-- Python os.getenv(name): the environment is an association list. -/
def getenv (env : Store String) (name : String) : Option String :=
  lookupKey env name

/-- Python os.getenv(name, default). -/
def getenvD (env : Store String) (name dflt : String) : String :=
  (getenv env name).getD dflt

/-- Python truthiness of an optional string: None and the empty string are
falsy, every other string truthy. -/
def truthy : Option String → Bool
  | none => false
  | some s => !s.isEmpty

/-- The backend chosen by _auto_detect_storage, with the constructor
arguments of the chosen class. timeout_env carries the raw environment value
to which the source applies int(). -/
inductive StorageChoice where
  | azureBlob (connection_string container_name timeout_env : String) : StorageChoice
  | localFiles (profiles_dir : String) : StorageChoice
deriving DecidableEq

/-- True exactly on the blob choice. -/
def StorageChoice.isAzure : StorageChoice → Bool
  | StorageChoice.azureBlob _ _ _ => true
  | StorageChoice.localFiles _ => false

/-- manager._auto_detect_storage: blob backend only when the lowercased
ENVIRONMENT is production, the connection string is set and non-empty, and the
Azure SDK imported (azure_available models AZURE_AVAILABLE); otherwise the
local backend on PROFILES_DIR. -/
def _auto_detect_storage (env : Store String) (azure_available : Bool) :
    StorageChoice :=
  let environment := pyLower (getenvD env "ENVIRONMENT" "development")
  let azure_connection_string := getenv env "AZURE_STORAGE_CONNECTION_STRING"
  let azure_container_name := getenvD env "AZURE_STORAGE_CONTAINER_NAME" "company-profiles"
  if environment == "production" && truthy azure_connection_string && azure_available then
    StorageChoice.azureBlob (azure_connection_string.getD "") azure_container_name
      (getenvD env "AZURE_STORAGE_TIMEOUT_SECONDS" "30")
  else
    StorageChoice.localFiles (getenvD env "PROFILES_DIR" "./profiles")

/-- A small concrete instance of the collaborator, used to evaluate the
theorems on closed inputs: profiles are their own dumps, validation rejects
exactly mappings carrying the key bad, and the text codec knows the two
texts empty and full. -/
def TestModel : DataModel Dict where
  model_dump d := d
  model_validate d := if (lookupKey d "bad").isSome then none else some d
  model_dump_json d := if d.isEmpty then "empty" else "full"
  json_loads s :=
    if s == "empty" then some []
    else if s == "full" then some [("k", Json.num 1)]
    else if s == "poison" then some [("bad", Json.null)]
    else none

/-! Association-list lemmas shared by the filesystem, the container, the
service and the dict models. -/

@[simp]
theorem keysOf_nil {β : Type} : keysOf ([] : Store β) = [] := rfl

@[simp]
theorem keysOf_cons {β : Type} (kv : String × β) (l : Store β) :
    keysOf (kv :: l) = kv.1 :: keysOf l := rfl

theorem lookupKey_setKey_self {β : Type} (l : Store β) (k : String) (v : β) :
    lookupKey (setKey l k v) k = some v := by
  induction l with
  | nil => simp [setKey, lookupKey]
  | cons kv rest ih =>
    by_cases h : kv.1 = k
    · simp [setKey, h, lookupKey]
    · simp [setKey, h, lookupKey, ih]

theorem lookupKey_setKey_ne {β : Type} (l : Store β) (k k' : String) (v : β)
    (h : k' ≠ k) : lookupKey (setKey l k v) k' = lookupKey l k' := by
  induction l with
  | nil => simp [setKey, lookupKey, Ne.symm h]
  | cons kv rest ih =>
    by_cases hh : kv.1 = k
    · simp [setKey, hh, lookupKey, Ne.symm h]
    · by_cases h2 : kv.1 = k' <;> simp [setKey, hh, lookupKey, h2, h, ih]

theorem setKey_setKey_same {β : Type} (l : Store β) (k : String) (v : β) :
    setKey (setKey l k v) k v = setKey l k v := by
  induction l with
  | nil => simp [setKey]
  | cons kv rest ih =>
    by_cases h : kv.1 = k <;> simp [setKey, h, ih]

theorem lookupKey_isSome_iff {β : Type} (l : Store β) (k : String) :
    (lookupKey l k).isSome = true ↔ k ∈ keysOf l := by
  induction l with
  | nil => simp [lookupKey]
  | cons kv rest ih =>
    by_cases h : kv.1 = k
    · simp [lookupKey, h]
    · simp [lookupKey, h, ih, Ne.symm h]

theorem lookupKey_eq_none_of_not_mem {β : Type} (l : Store β) (k : String)
    (h : k ∉ keysOf l) : lookupKey l k = none := by
  rw [← Option.not_isSome_iff_eq_none]
  intro hs
  exact h ((lookupKey_isSome_iff l k).mp hs)

theorem eraseKey_sublist {β : Type} (l : Store β) (k : String) :
    List.Sublist (eraseKey l k) l := by
  induction l with
  | nil => simp [eraseKey]
  | cons kv rest ih =>
    by_cases h : kv.1 = k
    · have he : eraseKey (kv :: rest) k = rest := by simp [eraseKey, h]
      rw [he]
      exact List.sublist_cons_self kv rest
    · have he : eraseKey (kv :: rest) k = kv :: eraseKey rest k := by
        simp [eraseKey, h]
      rw [he]
      exact List.Sublist.cons₂ kv ih

theorem lookupKey_eraseKey_self {β : Type} (l : Store β) (k : String)
    (h : Store.WF l) : lookupKey (eraseKey l k) k = none := by
  induction l with
  | nil => simp [eraseKey, lookupKey]
  | cons kv rest ih =>
    have hcons : (kv.1 :: keysOf rest).Nodup := h
    have h1 : kv.1 ∉ keysOf rest := (List.nodup_cons.mp hcons).1
    have h2 : Store.WF rest := (List.nodup_cons.mp hcons).2
    by_cases hh : kv.1 = k
    · subst hh
      simpa [eraseKey] using lookupKey_eq_none_of_not_mem rest kv.1 h1
    · simp [eraseKey, hh, lookupKey, ih h2]

theorem lookupKey_eraseKey_ne {β : Type} (l : Store β) (k k' : String)
    (h : k' ≠ k) : lookupKey (eraseKey l k) k' = lookupKey l k' := by
  induction l with
  | nil => simp [eraseKey]
  | cons kv rest ih =>
    by_cases hh : kv.1 = k
    · subst hh
      simp [eraseKey, lookupKey, Ne.symm h]
    · by_cases h2 : kv.1 = k' <;> simp [eraseKey, hh, lookupKey, h2, h, ih]

theorem keysOf_setKey {β : Type} (l : Store β) (k : String) (v : β) :
    keysOf (setKey l k v) =
      if k ∈ keysOf l then keysOf l else keysOf l ++ [k] := by
  induction l with
  | nil => simp [setKey]
  | cons kv rest ih =>
    by_cases h : kv.1 = k
    · simp [setKey, h]
    · by_cases h2 : k ∈ keysOf rest <;>
        simp [setKey, h, ih, h2, Ne.symm h]

theorem WF_setKey {β : Type} (l : Store β) (k : String) (v : β)
    (h : Store.WF l) : Store.WF (setKey l k v) := by
  unfold Store.WF at h ⊢
  rw [keysOf_setKey]
  split
  · exact h
  · exact List.Nodup.append h (List.nodup_singleton k)
      (List.disjoint_singleton.mpr (by assumption))

theorem WF_eraseKey {β : Type} (l : Store β) (k : String)
    (h : Store.WF l) : Store.WF (eraseKey l k) :=
  List.Nodup.sublist (List.Sublist.map Prod.fst (eraseKey_sublist l k)) h

/-! String and storage-key lemmas. -/

theorem string_data_inj {a b : String} (h : a.data = b.data) : a = b := by
  cases a with
  | mk l1 =>
    cases b with
    | mk l2 => exact congrArg String.mk h

theorem jsonStem?_append (s : String) :
    jsonStem? (s ++ jsonExtension) = some s := by
  cases s with
  | mk l =>
    have hdata : (String.mk l ++ jsonExtension).data = l ++ jsonExtension.data :=
      String.data_append _ _
    unfold jsonStem?
    rw [hdata, if_pos (List.suffix_append l jsonExtension.data)]
    have hlen : jsonExtension.data.length = 5 := rfl
    rw [List.length_append, hlen, Nat.add_sub_cancel, List.take_left]

theorem eq_of_jsonStem? {k s : String} (h : jsonStem? k = some s) :
    k = s ++ jsonExtension := by
  unfold jsonStem? at h
  split at h
  case isTrue hsuf =>
    obtain ⟨t, ht⟩ := hsuf
    injection h with h'
    apply string_data_inj
    rw [String.data_append, ← h', ← ht]
    have hlen : (t ++ jsonExtension.data).length - 5 = t.length := by
      have h5 : jsonExtension.data.length = 5 := rfl
      rw [List.length_append, h5, Nat.add_sub_cancel]
    rw [hlen, List.take_left]
  case isFalse => exact absurd h (by simp)

theorem file_path_injective {s t : String}
    (h : LocalFileStorage._get_file_path s = LocalFileStorage._get_file_path t) :
    s = t := by
  unfold LocalFileStorage._get_file_path at h
  have hd := congrArg String.data h
  rw [String.data_append, String.data_append] at hd
  exact string_data_inj (List.append_cancel_right hd)

theorem blob_name_injective {s t : String}
    (h : AzureBlobStorage._get_blob_name s = AzureBlobStorage._get_blob_name t) :
    s = t := by
  unfold AzureBlobStorage._get_blob_name at h
  have hd := congrArg String.data h
  rw [String.data_append, String.data_append] at hd
  exact string_data_inj (List.append_cancel_right hd)

/-! The comparison of sorted() agrees with the lexicographic order. -/

theorem lex_nil_right {r : Char → Char → Prop} (l : List Char) :
    ¬ List.Lex r l [] := by
  intro h
  cases h

theorem lex_cons_cons_iff {r : Char → Char → Prop} (a b : Char) (as bs : List Char) :
    List.Lex r (a :: as) (b :: bs) ↔ r a b ∨ (a = b ∧ List.Lex r as bs) := by
  constructor
  · intro h
    cases h with
    | cons h => exact Or.inr ⟨rfl, h⟩
    | rel h => exact Or.inl h
  · intro h
    rcases h with h | ⟨rfl, h⟩
    · exact List.Lex.rel h
    · exact List.Lex.cons h

theorem charListLe_iff : ∀ as bs : List Char,
    charListLe as bs = true ↔ (List.Lex (· < ·) as bs ∨ as = bs)
  | [], [] => by simp [charListLe]
  | [], b :: bs => by simp [charListLe, List.Lex.nil]
  | a :: as, [] => by
    simp only [charListLe, Bool.false_eq_true, false_iff]
    rintro (h | h)
    · exact lex_nil_right _ h
    · exact absurd h (by simp)
  | a :: as, b :: bs => by
    rw [lex_cons_cons_iff]
    by_cases hab : a = b
    · subst hab
      have hred : charListLe (a :: as) (a :: bs) = charListLe as bs := by
        simp [charListLe]
      rw [hred, charListLe_iff as bs]
      constructor
      · rintro (h | h)
        · exact Or.inl (Or.inr ⟨rfl, h⟩)
        · exact Or.inr (by rw [h])
      · rintro ((h | ⟨_, h⟩) | h)
        · exact absurd h (lt_irrefl a)
        · exact Or.inl h
        · injection h with h1 h2
          exact Or.inr h2
    · simp only [charListLe, if_neg hab, decide_eq_true_iff, List.cons.injEq]
      constructor
      · intro h
        exact Or.inl (Or.inl h)
      · rintro ((h | ⟨hba, _⟩) | ⟨hba, _⟩)
        · exact h
        · exact absurd hba hab
        · exact absurd hba hab

theorem strLe_iff (a b : String) : strLe a b = true ↔ a ≤ b := by
  rw [String.le_iff_toList_le, le_iff_lt_or_eq]
  have hlex : (a.toList < b.toList) = List.Lex (· < ·) a.data b.data := rfl
  have hdata : (a.toList = b.toList) = (a.data = b.data) := rfl
  rw [hlex, hdata]
  exact charListLe_iff a.data b.data

/-! Lemmas about the sorted stem enumeration common to both list operations. -/

theorem mem_sortedStems_iff (names : List String) (id : String) :
    id ∈ List.insertionSort (fun a b => strLe a b = true) (names.filterMap jsonStem?) ↔
      id ++ jsonExtension ∈ names := by
  rw [(List.perm_insertionSort _ _).mem_iff, List.mem_filterMap]
  constructor
  · rintro ⟨k, hk, hstem⟩
    rwa [eq_of_jsonStem? hstem] at hk
  · intro hk
    exact ⟨id ++ jsonExtension, hk, jsonStem?_append id⟩

theorem nodup_sortedStems (names : List String) (h : names.Nodup) :
    (List.insertionSort (fun a b => strLe a b = true) (names.filterMap jsonStem?)).Nodup := by
  rw [(List.perm_insertionSort _ _).nodup_iff]
  refine List.Nodup.filterMap ?inj h
  intro a a' b hb hb'
  rw [eq_of_jsonStem? hb, eq_of_jsonStem? hb']

theorem sorted_sortedStems (names : List String) :
    List.Sorted (· ≤ ·)
      (List.insertionSort (fun a b => strLe a b = true) (names.filterMap jsonStem?)) := by
  have htotal : IsTotal String (fun a b => strLe a b = true) :=
    ⟨fun a b => by
      rw [strLe_iff, strLe_iff]
      exact le_total a b⟩
  have htrans : IsTrans String (fun a b => strLe a b = true) :=
    ⟨fun a b c hab hbc =>
      (strLe_iff a c).mpr (le_trans ((strLe_iff a b).mp hab) ((strLe_iff b c).mp hbc))⟩
  have hs := @List.sorted_insertionSort String _ _ htotal htrans (names.filterMap jsonStem?)
  exact List.Pairwise.imp (fun h => (strLe_iff _ _).mp h) hs

/-! Lemmas about dict.update, the shallow merge of ProfileManager.update. -/

theorem dictUpdate_cons (d : Dict) (kv : String × Json) (u : Dict) :
    dictUpdate d (kv :: u) = dictUpdate (setKey d kv.1 kv.2) u := rfl

theorem lookupKey_dictUpdate_not_mem (d u : Dict) (k : String) :
    k ∉ keysOf u → lookupKey (dictUpdate d u) k = lookupKey d k := by
  induction u generalizing d with
  | nil => intro _; rfl
  | cons kv rest ih =>
    intro h
    have h1 : k ≠ kv.1 := fun he => h (by simp [he])
    have h2 : k ∉ keysOf rest := fun hm => h (by simp [hm])
    rw [dictUpdate_cons, ih _ h2, lookupKey_setKey_ne _ _ _ _ h1]

theorem lookupKey_dictUpdate_mem (d u : Dict) (k : String) :
    (keysOf u).Nodup → k ∈ keysOf u →
    lookupKey (dictUpdate d u) k = lookupKey u k := by
  induction u generalizing d with
  | nil => intro _ h; cases h
  | cons kv rest ih =>
    intro hn h
    have hcons : (kv.1 :: keysOf rest).Nodup := hn
    by_cases he : k = kv.1
    · have hnm : k ∉ keysOf rest := by
        rw [he]
        exact (List.nodup_cons.mp hcons).1
      rw [dictUpdate_cons, lookupKey_dictUpdate_not_mem _ _ _ hnm, he,
          lookupKey_setKey_self]
      simp [lookupKey]
    · have hm : k ∈ keysOf rest := by
        rcases List.mem_cons.mp h with h' | h'
        · exact absurd h' he
        · exact h'
      rw [dictUpdate_cons, ih _ (List.nodup_cons.mp hcons).2 hm]
      simp [lookupKey, Ne.symm he]

/-! Claim theorems. -/

/-- C1: on the local backend, after save(id, p) the subsequent load(id)
succeeds with a record equal by validated-field content to p, and exists(id)
is true. The hypotheses are the collaborator laws the spec trusts: the
serialized text parses back to the dump, and validating a dump returns the
profile itself. -/
theorem save_then_load_roundtrip {P : Type} (M : DataModel P) (fs : FS)
    (profile_id : String) (p : P)
    (hjson : M.json_loads (M.model_dump_json p) = some (M.model_dump p))
    (hvalid : M.model_validate (M.model_dump p) = some p) :
    LocalFileStorage.load M (LocalFileStorage.save M fs profile_id p) profile_id
        = Except.ok p ∧
    LocalFileStorage.exists (LocalFileStorage.save M fs profile_id p) profile_id
        = true := by
  constructor
  · simp only [LocalFileStorage.load, LocalFileStorage.save,
      lookupKey_setKey_self, hjson, hvalid]
  · simp only [LocalFileStorage.exists, LocalFileStorage.save,
      lookupKey_setKey_self, Option.isSome_some]

/-- Witness: the round trip evaluated on the concrete collaborator. -/
theorem save_then_load_roundtrip_witness :
    LocalFileStorage.load TestModel
        (LocalFileStorage.save TestModel [] "acme" [("k", Json.num 1)]) "acme"
      = Except.ok [("k", Json.num 1)] ∧
    LocalFileStorage.exists
        (LocalFileStorage.save TestModel [] "acme" [("k", Json.num 1)]) "acme"
      = true :=
  save_then_load_roundtrip TestModel [] "acme" [("k", Json.num 1)] rfl rfl

/-- C9: save is an idempotent unconditional upsert on both backends: saving
the same profile twice produces the same state as saving it once (so load
returns the same result), and after a save the text stored under the storage
key of the id is the serialization of p, whatever was there before. -/
theorem save_idempotent_upsert {P : Type} (M : DataModel P) (fs : FS)
    (blobs : BlobContainer) (profile_id : String) (p : P) :
    LocalFileStorage.save M (LocalFileStorage.save M fs profile_id p) profile_id p
        = LocalFileStorage.save M fs profile_id p ∧
    LocalFileStorage.load M
        (LocalFileStorage.save M (LocalFileStorage.save M fs profile_id p) profile_id p)
        profile_id
      = LocalFileStorage.load M (LocalFileStorage.save M fs profile_id p) profile_id ∧
    lookupKey (LocalFileStorage.save M fs profile_id p)
        (LocalFileStorage._get_file_path profile_id)
      = some (M.model_dump_json p) ∧
    AzureBlobStorage.save M (AzureBlobStorage.save M blobs profile_id p) profile_id p
        = AzureBlobStorage.save M blobs profile_id p ∧
    lookupKey (AzureBlobStorage.save M blobs profile_id p)
        (AzureBlobStorage._get_blob_name profile_id)
      = some (M.model_dump_json p) := by
  have h1 : LocalFileStorage.save M (LocalFileStorage.save M fs profile_id p) profile_id p
      = LocalFileStorage.save M fs profile_id p :=
    setKey_setKey_same fs _ _
  have h4 : AzureBlobStorage.save M (AzureBlobStorage.save M blobs profile_id p) profile_id p
      = AzureBlobStorage.save M blobs profile_id p :=
    setKey_setKey_same blobs _ _
  exact ⟨h1, congrArg (fun s => LocalFileStorage.load M s profile_id) h1,
    lookupKey_setKey_self fs _ _, h4, lookupKey_setKey_self blobs _ _⟩

/-- C3: create fails with AlreadyExists and leaves the stored state unchanged
when the id is taken; when the id is free it validates the data, saves the
profile, and returns it. -/
theorem create_alreadyExists_or_saves {P : Type} (M : DataModel P) (fs : FS)
    (profile_id : String) (profile_data : Dict) :
    (LocalFileStorage.exists fs profile_id = true →
      ProfileManager.create M fs profile_id profile_data
        = (Except.error (StorageError.alreadyExists profile_id), fs)) ∧
    (LocalFileStorage.exists fs profile_id = false →
      ∀ p, M.model_validate profile_data = some p →
        ProfileManager.create M fs profile_id profile_data
          = (Except.ok p, LocalFileStorage.save M fs profile_id p)) := by
  constructor
  · intro h
    simp [ProfileManager.create, h]
  · intro h p hp
    simp [ProfileManager.create, h, hp]

/-- Witness: create on a taken id and on a free id, evaluated concretely. -/
theorem create_alreadyExists_or_saves_witness :
    ProfileManager.create TestModel [("acme.json", "full")] "acme" []
      = (Except.error (StorageError.alreadyExists "acme"), [("acme.json", "full")]) ∧
    ProfileManager.create TestModel [] "acme" []
      = (Except.ok [], LocalFileStorage.save TestModel [] "acme" []) :=
  ⟨(create_alreadyExists_or_saves TestModel [("acme.json", "full")] "acme" []).1 rfl,
   (create_alreadyExists_or_saves TestModel [] "acme" []).2 rfl [] rfl⟩

/-- C7: local load fails with NotFound exactly when the file is absent; when
the file is present, a JSON parse failure surfaces as the decode error and a
schema failure as the validation error, never translated into NotFound. -/
theorem load_error_taxonomy {P : Type} (M : DataModel P) (fs : FS)
    (profile_id : String) :
    (isNotFound (LocalFileStorage.load M fs profile_id) = true ↔
      lookupKey fs (LocalFileStorage._get_file_path profile_id) = none) ∧
    (∀ content,
      lookupKey fs (LocalFileStorage._get_file_path profile_id) = some content →
      M.json_loads content = none →
      LocalFileStorage.load M fs profile_id
        = Except.error StorageError.jsonDecodeError) ∧
    (∀ content data,
      lookupKey fs (LocalFileStorage._get_file_path profile_id) = some content →
      M.json_loads content = some data →
      M.model_validate data = none →
      LocalFileStorage.load M fs profile_id
        = Except.error StorageError.validationError) := by
  refine ⟨?_, ?_, ?_⟩
  · cases hl : lookupKey fs (LocalFileStorage._get_file_path profile_id) with
    | none => simp [LocalFileStorage.load, isNotFound, hl]
    | some content =>
      cases hj : M.json_loads content with
      | none => simp [LocalFileStorage.load, isNotFound, hl, hj]
      | some data =>
        cases hv : M.model_validate data with
        | none => simp [LocalFileStorage.load, isNotFound, hl, hj, hv]
        | some q => simp [LocalFileStorage.load, isNotFound, hl, hj, hv]
  · intro content h1 h2
    simp [LocalFileStorage.load, h1, h2]
  · intro content data h1 h2 h3
    simp [LocalFileStorage.load, h1, h2, h3]

/-- Witness: a missing file, an unparsable file and an invalid file, each
evaluated on the concrete collaborator. -/
theorem load_error_taxonomy_witness :
    isNotFound (LocalFileStorage.load TestModel [] "a") = true ∧
    LocalFileStorage.load TestModel [("a.json", "zz")] "a"
      = Except.error StorageError.jsonDecodeError ∧
    LocalFileStorage.load TestModel [("a.json", "poison")] "a"
      = Except.error StorageError.validationError :=
  ⟨(load_error_taxonomy TestModel [] "a").1.mpr rfl,
   (load_error_taxonomy TestModel [("a.json", "zz")] "a").2.1 "zz" rfl rfl,
   (load_error_taxonomy TestModel [("a.json", "poison")] "a").2.2 "poison"
     [("bad", Json.null)] rfl rfl rfl⟩

/-- C2: update on an existing id dumps the stored profile to a mapping,
shallow-merges the updates into it overriding exactly the top-level keys
present in the updates, re-validates the merged mapping and saves it; every
top-level key absent from the updates keeps its value; on a missing id it
fails with NotFound and leaves the state unchanged. -/
theorem update_shallow_merge {P : Type} (M : DataModel P) (fs : FS)
    (profile_id : String) (updates : Dict) :
    (LocalFileStorage.exists fs profile_id = false →
      ProfileManager.update M fs profile_id updates
        = (Except.error (StorageError.notFound profile_id), fs)) ∧
    (∀ q, LocalFileStorage.load M fs profile_id = Except.ok q →
      ∀ p, M.model_validate (dictUpdate (M.model_dump q) updates) = some p →
        ProfileManager.update M fs profile_id updates
          = (Except.ok p, LocalFileStorage.save M fs profile_id p)) ∧
    (∀ d k, k ∉ keysOf updates →
      lookupKey (dictUpdate d updates) k = lookupKey d k) ∧
    (∀ d k, (keysOf updates).Nodup → k ∈ keysOf updates →
      lookupKey (dictUpdate d updates) k = lookupKey updates k) := by
  refine ⟨?_, ?_, ?_, ?_⟩
  · intro h
    unfold LocalFileStorage.exists at h
    cases hnone : lookupKey fs (LocalFileStorage._get_file_path profile_id) with
    | some c =>
      rw [hnone] at h
      simp at h
    | none =>
      simp [ProfileManager.update, LocalFileStorage.load, hnone]
  · intro q hq p hp
    simp [ProfileManager.update, hq, hp]
  · intro d k hk
    exact lookupKey_dictUpdate_not_mem d updates k hk
  · intro d k hn hk
    exact lookupKey_dictUpdate_mem d updates k hn hk

/-- Witness: a tagline-only update merged into a stored profile, a NotFound
update, and the untouched sibling key, on the concrete collaborator. -/
theorem update_shallow_merge_witness :
    ProfileManager.update TestModel [("acme.json", "full")] "acme"
        [("tagline", Json.str "X")]
      = (Except.ok [("k", Json.num 1), ("tagline", Json.str "X")],
         LocalFileStorage.save TestModel [("acme.json", "full")] "acme"
           [("k", Json.num 1), ("tagline", Json.str "X")]) ∧
    ProfileManager.update TestModel [] "acme" [("tagline", Json.str "X")]
      = (Except.error (StorageError.notFound "acme"), []) ∧
    lookupKey (dictUpdate [("k", Json.num 1)] [("tagline", Json.str "X")]) "k"
      = lookupKey [("k", Json.num 1)] "k" :=
  ⟨(update_shallow_merge TestModel [("acme.json", "full")] "acme"
        [("tagline", Json.str "X")]).2.1 [("k", Json.num 1)] rfl
        [("k", Json.num 1), ("tagline", Json.str "X")] rfl,
   (update_shallow_merge TestModel [] "acme" [("tagline", Json.str "X")]).1 rfl,
   (update_shallow_merge TestModel [] "acme" [("tagline", Json.str "X")]).2.2.1
        [("k", Json.num 1)] "k" (by decide)⟩

/-- C4: on well-formed states list() is sorted ascending, has no duplicates,
and contains exactly the ids for which exists is true, for the local and for
the blob backend. -/
theorem list_sorted_nodup_exact (fs : FS) (blobs : BlobContainer)
    (hfs : Store.WF fs) (hb : Store.WF blobs) :
    List.Sorted (· ≤ ·) (LocalFileStorage.list fs) ∧
    (LocalFileStorage.list fs).Nodup ∧
    (∀ id, id ∈ LocalFileStorage.list fs ↔
      LocalFileStorage.exists fs id = true) ∧
    List.Sorted (· ≤ ·) (AzureBlobStorage.list blobs) ∧
    (AzureBlobStorage.list blobs).Nodup ∧
    (∀ id, id ∈ AzureBlobStorage.list blobs ↔
      AzureBlobStorage.exists blobs id = true) := by
  refine ⟨sorted_sortedStems _, nodup_sortedStems _ hfs, ?_,
    sorted_sortedStems _, nodup_sortedStems _ hb, ?_⟩
  · intro id
    unfold LocalFileStorage.list LocalFileStorage.exists LocalFileStorage._get_file_path
    rw [mem_sortedStems_iff, lookupKey_isSome_iff]
  · intro id
    unfold AzureBlobStorage.list AzureBlobStorage.exists AzureBlobStorage._get_blob_name
    rw [mem_sortedStems_iff, lookupKey_isSome_iff]

/-- Witness: the enumeration properties evaluated on small concrete states. -/
theorem list_sorted_nodup_exact_witness :
    List.Sorted (· ≤ ·) (LocalFileStorage.list [("b.json", "y"), ("a.json", "x")]) ∧
    (LocalFileStorage.list [("b.json", "y"), ("a.json", "x")]).Nodup ∧
    (∀ id, id ∈ LocalFileStorage.list [("b.json", "y"), ("a.json", "x")] ↔
      LocalFileStorage.exists [("b.json", "y"), ("a.json", "x")] id = true) ∧
    List.Sorted (· ≤ ·) (AzureBlobStorage.list [("c.json", "z")]) ∧
    (AzureBlobStorage.list [("c.json", "z")]).Nodup ∧
    (∀ id, id ∈ AzureBlobStorage.list [("c.json", "z")] ↔
      AzureBlobStorage.exists [("c.json", "z")] id = true) :=
  list_sorted_nodup_exact [("b.json", "y"), ("a.json", "x")] [("c.json", "z")]
    (by unfold Store.WF; decide) (by unfold Store.WF; decide)

/-- C5: the auto-detector picks the blob backend exactly when the lowercased
environment name is production, the connection string is set and non-empty,
and the Azure SDK is importable; in that case it passes the credential, the
container variable and the timeout variable, and in every other case it picks
the local backend on the directory variable defaulting to ./profiles. -/
theorem auto_detect_selection (env : Store String) (azure_available : Bool) :
    ((_auto_detect_storage env azure_available).isAzure = true ↔
      (pyLower (getenvD env "ENVIRONMENT" "development") = "production" ∧
        truthy (getenv env "AZURE_STORAGE_CONNECTION_STRING") = true ∧
        azure_available = true)) ∧
    (pyLower (getenvD env "ENVIRONMENT" "development") = "production" →
      truthy (getenv env "AZURE_STORAGE_CONNECTION_STRING") = true →
      azure_available = true →
      _auto_detect_storage env azure_available
        = StorageChoice.azureBlob
            ((getenv env "AZURE_STORAGE_CONNECTION_STRING").getD "")
            (getenvD env "AZURE_STORAGE_CONTAINER_NAME" "company-profiles")
            (getenvD env "AZURE_STORAGE_TIMEOUT_SECONDS" "30")) ∧
    ((_auto_detect_storage env azure_available).isAzure = false →
      _auto_detect_storage env azure_available
        = StorageChoice.localFiles (getenvD env "PROFILES_DIR" "./profiles")) := by
  unfold _auto_detect_storage
  by_cases h1 : pyLower (getenvD env "ENVIRONMENT" "development") = "production" <;>
    by_cases h2 : truthy (getenv env "AZURE_STORAGE_CONNECTION_STRING") = true <;>
      by_cases h3 : azure_available = true <;>
        simp [h1, h2, h3, StorageChoice.isAzure, beq_iff_eq]

/-- Witness: a production environment with credentials picks the blob
backend and an empty environment picks the local backend. -/
theorem auto_detect_selection_witness :
    _auto_detect_storage
        [("ENVIRONMENT", "production"), ("AZURE_STORAGE_CONNECTION_STRING", "cs")]
        true
      = StorageChoice.azureBlob "cs" "company-profiles" "30" ∧
    _auto_detect_storage [] false = StorageChoice.localFiles "./profiles" :=
  ⟨(auto_detect_selection
      [("ENVIRONMENT", "production"), ("AZURE_STORAGE_CONNECTION_STRING", "cs")]
      true).2.1 (by decide) (by decide) (by decide),
   (auto_detect_selection [] false).2.2 (by decide)⟩

/-- C6: on a well-formed directory an id with no record has exists false and
both load and delete fail with NotFound; after a successful delete the id no
longer exists and a second delete fails with NotFound. -/
theorem delete_and_missing_semantics {P : Type} (M : DataModel P) (fs : FS)
    (profile_id : String) (hwf : Store.WF fs) :
    (LocalFileStorage.exists fs profile_id = false →
      isNotFound (LocalFileStorage.load M fs profile_id) = true ∧
      isNotFound (LocalFileStorage.delete fs profile_id) = true) ∧
    (∀ fs2, LocalFileStorage.delete fs profile_id = Except.ok fs2 →
      LocalFileStorage.exists fs2 profile_id = false ∧
      isNotFound (LocalFileStorage.delete fs2 profile_id) = true) := by
  constructor
  · intro h
    unfold LocalFileStorage.exists at h
    cases hnone : lookupKey fs (LocalFileStorage._get_file_path profile_id) with
    | some c =>
      rw [hnone] at h
      simp at h
    | none =>
      exact ⟨by simp [LocalFileStorage.load, hnone, isNotFound],
        by simp [LocalFileStorage.delete, hnone, isNotFound]⟩
  · intro fs2 hdel
    unfold LocalFileStorage.delete at hdel
    by_cases hs : (lookupKey fs (LocalFileStorage._get_file_path profile_id)).isSome = true
    · rw [if_pos hs] at hdel
      injection hdel with h2
      subst h2
      have hkey : lookupKey (eraseKey fs (LocalFileStorage._get_file_path profile_id))
          (LocalFileStorage._get_file_path profile_id) = none :=
        lookupKey_eraseKey_self fs _ hwf
      exact ⟨by simp [LocalFileStorage.exists, hkey],
        by simp [LocalFileStorage.delete, hkey, isNotFound]⟩
    · rw [if_neg hs] at hdel
      simp at hdel

/-- Witness: a missing id and a delete followed by a second delete. -/
theorem delete_and_missing_semantics_witness :
    (isNotFound (LocalFileStorage.load TestModel [("a.json", "x")] "b") = true ∧
     isNotFound (LocalFileStorage.delete [("a.json", "x")] "b") = true) ∧
    (LocalFileStorage.exists ([] : FS) "a" = false ∧
     isNotFound (LocalFileStorage.delete ([] : FS) "a") = true) :=
  ⟨(delete_and_missing_semantics TestModel [("a.json", "x")] "b"
      (by unfold Store.WF; decide)).1 rfl,
   (delete_and_missing_semantics TestModel [("a.json", "x")] "a"
      (by unfold Store.WF; decide)).2 [] rfl⟩

/-- C8: after construction the target container exists: the constructor runs
_ensure_container_exists, after which the container is present, and when the
lookup signalled not-found the container was created. -/
theorem ensure_container_spec (svc : BlobService) (container_name : String) :
    (lookupKey (AzureBlobStorage._ensure_container_exists svc container_name)
        container_name).isSome = true ∧
    ((lookupKey svc container_name).isSome = false →
      AzureBlobStorage._ensure_container_exists svc container_name
        = AzureBlobStorage.create_container svc container_name) := by
  constructor
  · by_cases h : (lookupKey svc container_name).isSome = true
    · simp [AzureBlobStorage._ensure_container_exists,
        AzureBlobStorage.get_container_client, h]
    · have h' : (lookupKey svc container_name).isSome = false := by
        cases hb : (lookupKey svc container_name).isSome
        · rfl
        · exact absurd hb h
      simp [AzureBlobStorage._ensure_container_exists,
        AzureBlobStorage.get_container_client, AzureBlobStorage.create_container,
        h', lookupKey_setKey_self]
  · intro h
    simp [AzureBlobStorage._ensure_container_exists,
      AzureBlobStorage.get_container_client, h]

/-- Witness: ensuring a container on an empty service creates it. -/
theorem ensure_container_spec_witness :
    (lookupKey (AzureBlobStorage._ensure_container_exists [] "c") "c").isSome
      = true ∧
    AzureBlobStorage._ensure_container_exists [] "c"
      = AzureBlobStorage.create_container [] "c" :=
  ⟨(ensure_container_spec [] "c").1, (ensure_container_spec [] "c").2 rfl⟩

/-- C10: distinct ids map to distinct storage keys on both backends, so save
and delete at one id leave existence and load results at every other id
unchanged. -/
theorem save_delete_frame {P : Type} (M : DataModel P) (fs : FS)
    (blobs : BlobContainer) (id1 id2 : String) (p : P) (h : id1 ≠ id2) :
    LocalFileStorage._get_file_path id1 ≠ LocalFileStorage._get_file_path id2 ∧
    AzureBlobStorage._get_blob_name id1 ≠ AzureBlobStorage._get_blob_name id2 ∧
    LocalFileStorage.exists (LocalFileStorage.save M fs id1 p) id2
      = LocalFileStorage.exists fs id2 ∧
    LocalFileStorage.load M (LocalFileStorage.save M fs id1 p) id2
      = LocalFileStorage.load M fs id2 ∧
    (∀ fs2, LocalFileStorage.delete fs id1 = Except.ok fs2 →
      LocalFileStorage.exists fs2 id2 = LocalFileStorage.exists fs id2 ∧
      LocalFileStorage.load M fs2 id2 = LocalFileStorage.load M fs id2) ∧
    AzureBlobStorage.exists (AzureBlobStorage.save M blobs id1 p) id2
      = AzureBlobStorage.exists blobs id2 := by
  have hkey : LocalFileStorage._get_file_path id2 ≠ LocalFileStorage._get_file_path id1 :=
    fun he => h (file_path_injective he).symm
  have hbkey : AzureBlobStorage._get_blob_name id2 ≠ AzureBlobStorage._get_blob_name id1 :=
    fun he => h (blob_name_injective he).symm
  have hlook : lookupKey (LocalFileStorage.save M fs id1 p)
      (LocalFileStorage._get_file_path id2)
        = lookupKey fs (LocalFileStorage._get_file_path id2) :=
    lookupKey_setKey_ne fs _ _ _ hkey
  have hblook : lookupKey (AzureBlobStorage.save M blobs id1 p)
      (AzureBlobStorage._get_blob_name id2)
        = lookupKey blobs (AzureBlobStorage._get_blob_name id2) :=
    lookupKey_setKey_ne blobs _ _ _ hbkey
  refine ⟨fun he => h (file_path_injective he),
    fun he => h (blob_name_injective he),
    by simp [LocalFileStorage.exists, hlook],
    by unfold LocalFileStorage.load; rw [hlook],
    ?_,
    by simp [AzureBlobStorage.exists, hblook]⟩
  intro fs2 hdel
  unfold LocalFileStorage.delete at hdel
  by_cases hs : (lookupKey fs (LocalFileStorage._get_file_path id1)).isSome = true
  · rw [if_pos hs] at hdel
    injection hdel with h2
    subst h2
    have he : lookupKey (eraseKey fs (LocalFileStorage._get_file_path id1))
        (LocalFileStorage._get_file_path id2)
          = lookupKey fs (LocalFileStorage._get_file_path id2) :=
      lookupKey_eraseKey_ne fs _ _ hkey
    exact ⟨by simp [LocalFileStorage.exists, he],
      by unfold LocalFileStorage.load; rw [he]⟩
  · rw [if_neg hs] at hdel
    simp at hdel

/-- Witness: the frame property at two concrete distinct ids. -/
theorem save_delete_frame_witness :
    LocalFileStorage._get_file_path "a" ≠ LocalFileStorage._get_file_path "b" ∧
    AzureBlobStorage._get_blob_name "a" ≠ AzureBlobStorage._get_blob_name "b" ∧
    LocalFileStorage.exists (LocalFileStorage.save TestModel [] "a" []) "b"
      = LocalFileStorage.exists [] "b" ∧
    LocalFileStorage.load TestModel (LocalFileStorage.save TestModel [] "a" []) "b"
      = LocalFileStorage.load TestModel [] "b" ∧
    (∀ fs2, LocalFileStorage.delete [] "a" = Except.ok fs2 →
      LocalFileStorage.exists fs2 "b" = LocalFileStorage.exists [] "b" ∧
      LocalFileStorage.load TestModel fs2 "b" = LocalFileStorage.load TestModel [] "b") ∧
    AzureBlobStorage.exists (AzureBlobStorage.save TestModel [] "a" []) "b"
      = AzureBlobStorage.exists [] "b" :=
  save_delete_frame TestModel [] [] "a" "b" [] (by decide)

end CarmCompanyProfile
